import Mathlib

/-
Verification of the microstates segmentation engine
(neurokit2/microstates/microstates_segment.py).

The signal matrix (channels x samples) is embedded as a list of sample
columns, each column a list of rational channel values; a pattern set is a
list of pattern rows, each row a list of rational channel values.  Floating
point arithmetic is embedded as exact rational arithmetic.
-/

/-- Inner product of two channel vectors; embeds a single entry of the numpy
matrix product microstates.dot(data). -/
def dot (u v : List ℚ) : ℚ := (List.zipWith (fun a b => a * b) u v).sum

/-- Elementwise absolute value; embeds np.abs. -/
def absList (xs : List ℚ) : List ℚ := xs.map (fun x => |x|)

/-- np.sign on a scalar: 1 for positive, -1 for negative, 0 for zero. -/
def npSign (q : ℚ) : Int := if 0 < q then 1 else if q < 0 then -1 else 0

/-- np.argmax on a vector: the first (lowest) index attaining the maximum
value, per the numpy first-occurrence convention. -/
def npArgmax (xs : List ℚ) : ℕ := xs.findIdx (fun x => xs.maximum == some x)

/-- Column of activations of one sample against every pattern: row p is
microstates[p] . data[:, sample].  Embeds one column of
activation = microstates.dot(data). -/
def activations (microstates : List (List ℚ)) (col : List ℚ) : List ℚ :=
  microstates.map (fun m => dot m col)

/-- Assigned pattern index for one sample: embeds one entry of
segmentation = np.argmax(np.abs(activation), axis=0). -/
def segmentOne (microstates : List (List ℚ)) (col : List ℚ) : ℕ :=
  npArgmax (absList (activations microstates col))

/-- Whole segmentation, one assigned index per sample. -/
def segmentationOf (microstates : List (List ℚ)) (data : List (List ℚ)) : List ℕ :=
  data.map (segmentOne microstates)

/-- Polarity of one sample: embeds one entry of
polarity = np.sign(np.choose(segmentation, activation)), that is the sign of
the activation value of the assigned pattern. -/
def polarityOne (microstates : List (List ℚ)) (col : List ℚ) : Int :=
  npSign ((activations microstates col).getD (segmentOne microstates col) 0)

/-- Whole polarity sequence, one sign per sample. -/
def polarityOf (microstates : List (List ℚ)) (data : List (List ℚ)) : List Int :=
  data.map (polarityOne microstates)

/-- Sum of squares of a strength series. -/
def sumSq (xs : List ℚ) : ℚ := (xs.map (fun x => x * x)).sum

/-- Modelled from the spec: the squared correlation between a sample vector
and a pattern vector used by the quality scorer _cluster_quality_gev, whose
source file is not part of this repository snapshot.  Squared correlation is
the squared inner product normalized by both squared norms; a zero vector on
either side yields 0. -/
def corrSq (u v : List ℚ) : ℚ :=
  if dot u u * dot v v = 0 then 0 else dot u v * dot u v / (dot u u * dot v v)

/-- Modelled from the spec: the per-sample GEV contribution,
gev_sample = strength^2 * correlation^2 / sum of squared strengths. -/
def gevSampleVal (microstates : List (List ℚ)) (gfpSq : ℚ) (col : List ℚ) (w : ℚ) : ℚ :=
  w * w * corrSq col (microstates.getD (segmentOne microstates col) []) / gfpSq

/-- Modelled from the spec: aggregate GEV, the sum of per-sample GEV
contributions over all samples. -/
def gevTotal (microstates : List (List ℚ)) (data : List (List ℚ)) (gfp : List ℚ) : ℚ :=
  ((data.zip gfp).map (fun cg => gevSampleVal microstates (sumSq gfp) cg.1 cg.2)).sum

/-- Modelled from the spec: per-pattern GEV, isolating the samples whose
assignment equals the pattern index; a pattern with no assigned samples
scores 0. -/
def gevPerPattern (microstates : List (List ℚ)) (data : List (List ℚ)) (gfp : List ℚ) :
    List ℚ :=
  (List.range microstates.length).map (fun p =>
    (((data.zip gfp).filter (fun cg => segmentOne microstates cg.1 == p)).map
      (fun cg => gevSampleVal microstates (sumSq gfp) cg.1 cg.2)).sum)

/-- Embeds _microstates_segment_runsegmentation: segmentation, polarity,
aggregate GEV and per-pattern GEV on the whole dataset. -/
def microstates_segment_runsegmentation (data : List (List ℚ))
    (microstates : List (List ℚ)) (gfp : List ℚ) :
    List ℕ × List Int × ℚ × List ℚ :=
  (segmentationOf microstates data, polarityOf microstates data,
   gevTotal microstates data gfp, gevPerPattern microstates data gfp)

/-- Modelled from the spec: the result dictionary of one call to the
clustering primitive cluster(..., method="kmod", ...), whose source file is
not part of this repository snapshot.  The segmentation engine reads the
fields clusters_normalized (the fitted pattern rows, info["clusters_normalized"])
and residual (the fit-internal residual diagnostic, info["residual"]); the
remaining algorithm-specific diagnostics are kept opaque as a tag. -/
structure RunFit where
  clusters_normalized : List (List ℚ)
  residual : ℚ
  tag : ℕ
deriving DecidableEq

/-- The per-run candidate: the fitted patterns together with the outputs of
the assignment engine on the whole dataset (lines s, p, g, g_all). -/
structure RunResult where
  microstates : List (List ℚ)
  s : List ℕ
  p : List Int
  g : ℚ
  g_all : List ℚ
  residual : ℚ
  fit : RunFit
deriving DecidableEq

/-- One run of the loop body before the selection test: cluster fit followed
by _microstates_segment_runsegmentation on the whole dataset. -/
def mkRunResult (data : List (List ℚ)) (gfp : List ℚ) (f : RunFit) : RunResult :=
  { microstates := f.clusters_normalized
    s := segmentationOf f.clusters_normalized data
    p := polarityOf f.clusters_normalized data
    g := gevTotal f.clusters_normalized data gfp
    g_all := gevPerPattern f.clusters_normalized data gfp
    residual := f.residual
    fit := f }

/-- The Python exceptions the multi-run path can raise. -/
inductive RunError where
  | typeErrorISub
  | nameErrorUnbound
deriving DecidableEq

/-- Mutable state of the multi-run selection loop.  The Python locals gev
and cv are always bound (to 0 and np.inf); microstates, segmentation,
polarity and info start as None, and gev_all starts unbound; all of these
are embedded as Option with none for None, unbound, or np.inf. -/
structure SelState where
  gev : ℚ
  cv : Option ℚ
  microstates : Option (List (List ℚ))
  segmentation : Option (List ℕ)
  polarity : Option (List Int)
  gev_all : Option (List ℚ)
  info : Option RunFit
deriving DecidableEq

/-- The loop state right before the first run: gev = 0, cv = np.inf,
everything else unset. -/
def initState : SelState :=
  { gev := 0, cv := none, microstates := none, segmentation := none,
    polarity := none, gev_all := none, info := none }

/-- Selection step under criterion "gev": the candidate replaces the best
iff g > gev (strict). -/
def gevStep (st : SelState) (r : RunResult) : SelState :=
  if st.gev < r.g then
    { gev := r.g, cv := st.cv, microstates := some r.microstates,
      segmentation := some r.s, polarity := some r.p,
      gev_all := some r.g_all, info := some r.fit }
  else st

/-- Comparison current_residual < cv where cv may be np.inf (none). -/
def cvLt (x : ℚ) : Option ℚ → Bool
  | none => true
  | some c => decide (x < c)

/-- The Python statement info -= current_info: info is either None or a
dict, and neither supports subtraction of a dict, so this always raises a
TypeError. -/
def infoISub (_ : Option RunFit) (_ : RunFit) : Except RunError (Option RunFit) :=
  Except.error RunError.typeErrorISub

/-- Selection step under criterion "cv": when current_residual < cv the
candidate fields are assigned and then info -= current_info executes, which
raises; a candidate with residual not below cv leaves the state unchanged. -/
def cvStep (st : SelState) (r : RunResult) : Except RunError SelState :=
  if cvLt r.residual st.cv then
    match infoISub st.info r.fit with
    | Except.error e => Except.error e
    | Except.ok i =>
      Except.ok { gev := r.g, cv := some r.residual,
                  microstates := some r.microstates, segmentation := some r.s,
                  polarity := some r.p, gev_all := some r.g_all, info := i }
  else Except.ok st

/-- The criterion dispatch inside the loop body: an unrecognized criterion
string matches neither branch and leaves the state unchanged. -/
def stepCrit (criterion : String) (st : SelState) (r : RunResult) :
    Except RunError SelState :=
  if criterion = "gev" then Except.ok (gevStep st r)
  else if criterion = "cv" then cvStep st r
  else Except.ok st

/-- The run loop: for each fit, run the assignment engine then the selection
step; an exception aborts the loop.  The second component counts how many
calls to the clustering primitive have been performed. -/
def runLoop (criterion : String) (data : List (List ℚ)) (gfp : List ℚ) :
    SelState → ℕ → List RunFit → Except RunError SelState × ℕ
  | st, calls, [] => (Except.ok st, calls)
  | st, calls, f :: rest =>
    match stepCrit criterion st (mkRunResult data gfp f) with
    | Except.error e => (Except.error e, calls + 1)
    | Except.ok st2 => runLoop criterion data gfp st2 (calls + 1) rest

/-- The selection loop restricted to criterion "gev", as a fold (this branch
never raises). -/
def gevFoldFrom (data : List (List ℚ)) (gfp : List ℚ) (st0 : SelState)
    (fits : List RunFit) : SelState :=
  fits.foldl (fun st f => gevStep st (mkRunResult data gfp f)) st0

/-- Sampling without replacement: m draws from a pool, each draw picking a
position from the remaining pool and removing the drawn element.  Modelled
from the spec: random_state.choice(range(n_runs * 1000), n_runs,
replace=False), with the numpy generator embedded as a stream of naturals. -/
def sampleNoReplace (stream : ℕ → ℕ) : ℕ → ℕ → List ℕ → List ℕ
  | _, 0, _ => []
  | i, m + 1, pool =>
    if pool.isEmpty then []
    else
      pool.getD (stream i % pool.length) 0 ::
        sampleNoReplace stream (i + 1) m
          (pool.erase (pool.getD (stream i % pool.length) 0))

/-- The seed-derivation step: one integer seed per run, drawn without
replacement from range(n_runs * 1000). -/
def randomStateChoice (stream : ℕ → ℕ) (n_runs : ℕ) : List ℕ :=
  sampleNoReplace stream 0 n_runs (List.range (n_runs * 1000))

/-- The output dictionary assembled at the end of microstates_segment,
restricted to the fields the spec names.  Label canonicalization
(microstates_classify) is an external pure reordering outside the claims
and is not applied here. -/
structure SegResult where
  microstates : List (List ℚ)
  sequence : List ℕ
  gev : ℚ
  gev_all : List ℚ
  gfp : List ℚ
  polarity : List Int
  info_residual : ℚ
  info_tag : ℕ
deriving DecidableEq

/-- Output assembly after the multi-run loop: when no run was ever selected,
microstates, segmentation and polarity are still None and gev_all is still
unbound, so building the output raises (in Python a NameError on gev_all,
after microstates_classify receives None). -/
def assembleKmod (st : SelState) (gfp : List ℚ) : Except RunError SegResult :=
  match st.microstates, st.segmentation, st.polarity, st.gev_all, st.info with
  | some ms, some s, some p, some ga, some f =>
    Except.ok { microstates := ms, sequence := s, gev := st.gev, gev_all := ga,
                gfp := gfp, polarity := p, info_residual := f.residual,
                info_tag := f.tag }
  | _, _, _, _, _ => Except.error RunError.nameErrorUnbound

/-- The method strings dispatched to the multi-run modified k-means path. -/
def kmodNames : List String := ["kmods", "kmod", "kmeans modified", "modified kmeans"]

/-- Result of one call of the entry point, together with the number of calls
made to the clustering primitive. -/
structure SegOutput where
  result : Except RunError SegResult
  clusterCalls : ℕ

/-- Embeds the microstates_segment entry point (method and criterion
dispatch, seed derivation, multi-run selection, single-run path), with the
clustering primitive as an explicit functional parameter taking the method
string and the per-run seed. -/
def microstates_segment (cluster_fit : String → ℕ → RunFit)
    (method criterion : String) (data : List (List ℚ)) (gfp : List ℚ)
    (stream : ℕ → ℕ) (n_runs : ℕ) : SegOutput :=
  if method ∈ kmodNames then
    let seeds := randomStateChoice stream n_runs
    let fits := seeds.map (fun s => cluster_fit "kmod" s)
    match runLoop criterion data gfp initState 0 fits with
    | (Except.error e, calls) => { result := Except.error e, clusterCalls := calls }
    | (Except.ok st, calls) => { result := assembleKmod st gfp, clusterCalls := calls }
  else
    let f := cluster_fit method (stream 0)
    let r := mkRunResult data gfp f
    { result := Except.ok { microstates := r.microstates, sequence := r.s,
                            gev := r.g, gev_all := r.g_all, gfp := gfp,
                            polarity := r.p, info_residual := f.residual,
                            info_tag := f.tag },
      clusterCalls := 1 }

/-- A clustering primitive that returns the same fit for every method and
seed; used to instantiate theorems at concrete inputs. -/
def constFitOf (f : RunFit) : String → ℕ → RunFit := fun _ _ => f

/-- getD agrees with indexed access below the length. -/
theorem getD_of_lt {α : Type} (xs : List α) (d : α) (i : ℕ) (h : i < xs.length) :
    xs.getD i d = xs[i] := by
  simp [List.getD, List.getElem?_eq_getElem h]

/-- On a nonempty vector, npArgmax returns an index below the length. -/
theorem npArgmax_lt_length (xs : List ℚ) (hx : xs ≠ []) : npArgmax xs < xs.length := by
  obtain ⟨m, hm⟩ : ∃ m : ℚ, xs.maximum = some m := by
    cases h : xs.maximum with
    | bot => exact absurd (List.maximum_eq_bot.mp h) hx
    | coe m => exact ⟨m, (WithBot.some_eq_coe m).symm⟩
  have hmem : m ∈ xs := List.maximum_mem hm
  exact List.findIdx_lt_length_of_exists
    ⟨m, hmem, by rw [hm]; exact beq_self_eq_true _⟩

/-- The entry at npArgmax is the maximum of the vector. -/
theorem npArgmax_achieves (xs : List ℚ) (hx : xs ≠ []) :
    xs.maximum = some (xs.get ⟨npArgmax xs, npArgmax_lt_length xs hx⟩) := by
  have h := @List.findIdx_getElem ℚ (fun x => xs.maximum == some x) xs
    (npArgmax_lt_length xs hx)
  exact eq_of_beq h

/-- Full numpy argmax specification: the returned index is in range, its
entry is an upper bound for every entry, and every earlier entry is
strictly below it (first-occurrence-of-maximum policy). -/
theorem npArgmax_spec (xs : List ℚ) (hx : xs ≠ []) :
    npArgmax xs < xs.length ∧
    (∀ i, (hi : i < xs.length) → xs.getD i 0 ≤ xs.getD (npArgmax xs) 0) ∧
    (∀ i, i < npArgmax xs → xs.getD i 0 < xs.getD (npArgmax xs) 0) := by
  have hlt := npArgmax_lt_length xs hx
  have hach : xs.maximum = some xs[npArgmax xs] := npArgmax_achieves xs hx
  refine ⟨hlt, ?_, ?_⟩
  · intro i hi
    rw [getD_of_lt xs 0 i hi, getD_of_lt xs 0 _ hlt]
    have hmem : xs[i] ∈ xs := List.getElem_mem hi
    exact List.le_maximum_of_mem hmem hach
  · intro i hij
    have hi : i < xs.length := Nat.lt_trans hij hlt
    rw [getD_of_lt xs 0 i hi, getD_of_lt xs 0 _ hlt]
    have hne := List.not_of_lt_findIdx hij
    have hne2 : xs.maximum ≠ some xs[i] := by
      intro hcontra
      simp [hcontra] at hne
    have hle : xs[i] ≤ xs[npArgmax xs] :=
      List.le_maximum_of_mem (List.getElem_mem hi) hach
    rcases lt_or_eq_of_le hle with h | h
    · exact h
    · exfalso
      refine hne2 ?_
      rw [hach, h]

/-- With a single pattern, every sample is assigned index 0. -/
theorem segmentOne_singleton (m : List ℚ) (col : List ℚ) : segmentOne [m] col = 0 := by
  have h : npArgmax (absList (activations [m] col)) <
      (absList (activations [m] col)).length :=
    npArgmax_lt_length _ (by simp [absList, activations])
  have hlen : (absList (activations [m] col)).length = 1 := by
    simp [absList, activations]
  rw [hlen] at h
  exact Nat.lt_one_iff.mp h

/-- Concrete one-channel signal: a single sample with value 1. -/
def exData1 : List (List ℚ) := [[1]]

/-- Concrete strength series for exData1. -/
def exGfp1 : List ℚ := [1]

/-- Concrete fit whose single pattern matches exData1 exactly (GEV 1). -/
def exFit1 : RunFit := { clusters_normalized := [[1]], residual := 5, tag := 7 }

/-- Concrete two-channel signal: a single sample orthogonal to the pattern
of exFitOrth (GEV 0). -/
def exDataOrth : List (List ℚ) := [[0, 1]]

/-- Concrete strength series for exDataOrth. -/
def exGfpOrth : List ℚ := [1]

/-- Concrete fit whose single pattern is orthogonal to exDataOrth. -/
def exFitOrth : RunFit := { clusters_normalized := [[1, 0]], residual := 5, tag := 7 }

theorem exGev1 : gevTotal [[(1 : ℚ)]] exData1 exGfp1 = 1 := by
  norm_num [gevTotal, gevSampleVal, corrSq, sumSq, dot, segmentOne_singleton,
    activations, exData1, exGfp1]

theorem exGevOrth : gevTotal [[(1 : ℚ), 0]] exDataOrth exGfpOrth = 0 := by
  norm_num [gevTotal, gevSampleVal, corrSq, sumSq, dot, segmentOne_singleton,
    activations, exDataOrth, exGfpOrth]

theorem exSeg1 : segmentationOf [[(1 : ℚ)]] exData1 = [0] := by
  norm_num [segmentationOf, segmentOne_singleton, exData1]

theorem exPol1 : polarityOf [[(1 : ℚ)]] exData1 = [1] := by
  norm_num [polarityOf, polarityOne, npSign, activations, dot, segmentOne_singleton,
    exData1]

theorem exGevAll1 : gevPerPattern [[(1 : ℚ)]] exData1 exGfp1 = [1] := by
  norm_num [gevPerPattern, gevSampleVal, corrSq, sumSq, dot, segmentOne_singleton,
    activations, exData1, exGfp1, List.range_succ]

theorem exSegOrth : segmentationOf [[(1 : ℚ), 0]] exDataOrth = [0] := by
  norm_num [segmentationOf, segmentOne_singleton, exDataOrth]

theorem exPolOrth : polarityOf [[(1 : ℚ), 0]] exDataOrth = [0] := by
  norm_num [polarityOf, polarityOne, npSign, activations, dot, segmentOne_singleton,
    exDataOrth]

theorem exGevAllOrth : gevPerPattern [[(1 : ℚ), 0]] exDataOrth exGfpOrth = [0] := by
  norm_num [gevPerPattern, gevSampleVal, corrSq, sumSq, dot, segmentOne_singleton,
    activations, exDataOrth, exGfpOrth, List.range_succ]

theorem exPolZero : polarityOf [[(1 : ℚ)]] [[0]] = [0] := by
  norm_num [polarityOf, polarityOne, npSign, activations, dot, segmentOne_singleton]

/-- Every draw of sampleNoReplace comes from the pool. -/
theorem sampleNoReplace_subset (stream : ℕ → ℕ) :
    ∀ (m i : ℕ) (pool : List ℕ), ∀ y ∈ sampleNoReplace stream i m pool, y ∈ pool := by
  intro m
  induction m with
  | zero => intro i pool y hy; simp [sampleNoReplace] at hy
  | succ m ih =>
    intro i pool y hy
    by_cases hp : pool.isEmpty
    · simp [sampleNoReplace, hp] at hy
    · rw [sampleNoReplace, if_neg hp] at hy
      have hpos : 0 < pool.length := by
        cases pool with
        | nil => simp at hp
        | cons a t => simp
      rcases List.mem_cons.mp hy with h | h
      · have hj : stream i % pool.length < pool.length := Nat.mod_lt _ hpos
        rw [h, getD_of_lt _ _ _ hj]
        exact List.getElem_mem hj
      · exact List.erase_subset _ pool (ih (i + 1) _ y h)

/-- sampleNoReplace draws exactly m elements when the pool is large enough. -/
theorem sampleNoReplace_length (stream : ℕ → ℕ) :
    ∀ (m i : ℕ) (pool : List ℕ), m ≤ pool.length →
      (sampleNoReplace stream i m pool).length = m := by
  intro m
  induction m with
  | zero => intro i pool _; rfl
  | succ m ih =>
    intro i pool h
    have hpos : 0 < pool.length := Nat.lt_of_lt_of_le (Nat.succ_pos m) h
    have hp : pool.isEmpty = false := by
      cases pool with
      | nil => simp at hpos
      | cons a t => rfl
    rw [sampleNoReplace, if_neg (by simp [hp])]
    have hj : stream i % pool.length < pool.length := Nat.mod_lt _ hpos
    have hmem : pool.getD (stream i % pool.length) 0 ∈ pool := by
      rw [getD_of_lt _ _ _ hj]; exact List.getElem_mem hj
    have herase : (pool.erase (pool.getD (stream i % pool.length) 0)).length =
        pool.length - 1 := List.length_erase_of_mem hmem
    have hle : m ≤ (pool.erase (pool.getD (stream i % pool.length) 0)).length := by
      rw [herase]; omega
    rw [List.length_cons, ih (i + 1) _ hle]

/-- On a duplicate-free pool, the drawn elements are pairwise distinct. -/
theorem sampleNoReplace_nodup (stream : ℕ → ℕ) :
    ∀ (m i : ℕ) (pool : List ℕ), pool.Nodup →
      (sampleNoReplace stream i m pool).Nodup := by
  intro m
  induction m with
  | zero => intro i pool _; simp [sampleNoReplace]
  | succ m ih =>
    intro i pool hnd
    by_cases hp : pool.isEmpty
    · simp [sampleNoReplace, hp]
    · rw [sampleNoReplace, if_neg hp]
      refine List.nodup_cons.mpr ⟨?_, ih (i + 1) _ (hnd.erase _)⟩
      intro hmem
      exact hnd.not_mem_erase
        (sampleNoReplace_subset stream m (i + 1) _ _ hmem)

/-- One gev-criterion step never lowers the running best GEV. -/
theorem gevStep_gev_le (st : SelState) (r : RunResult) : st.gev ≤ (gevStep st r).gev := by
  unfold gevStep
  split
  · exact le_of_lt (by assumption)
  · exact le_refl _

/-- After one gev-criterion step, the running best GEV is at least the
GEV of the candidate just examined. -/
theorem gevStep_ge_g (st : SelState) (r : RunResult) : r.g ≤ (gevStep st r).gev := by
  unfold gevStep
  split
  · exact le_refl _
  · exact le_of_not_lt (by assumption)

/-- A candidate whose GEV does not strictly exceed the running best leaves
the selection state unchanged (ties retain the earlier candidate). -/
theorem gevStep_of_not_gt (st : SelState) (r : RunResult) (h : ¬ st.gev < r.g) :
    gevStep st r = st := if_neg h

/-- The gev-criterion fold never lowers the running best GEV. -/
theorem gevFoldFrom_ge_init (data : List (List ℚ)) (gfp : List ℚ) :
    ∀ (fits : List RunFit) (st0 : SelState),
      st0.gev ≤ (gevFoldFrom data gfp st0 fits).gev := by
  intro fits
  induction fits with
  | nil => intro st0; exact le_refl _
  | cons f t ih =>
    intro st0
    exact le_trans (gevStep_gev_le st0 (mkRunResult data gfp f)) (ih _)

/-- The gev-criterion fold ends with a best GEV at least the GEV of every
run candidate it examined. -/
theorem gevFoldFrom_ge_mem (data : List (List ℚ)) (gfp : List ℚ) :
    ∀ (fits : List RunFit) (st0 : SelState), ∀ f ∈ fits,
      (mkRunResult data gfp f).g ≤ (gevFoldFrom data gfp st0 fits).gev := by
  intro fits
  induction fits with
  | nil => intro st0 f hf; simp at hf
  | cons a t ih =>
    intro st0 f hf
    rcases List.mem_cons.mp hf with h | h
    · subst h
      exact le_trans (gevStep_ge_g st0 (mkRunResult data gfp f))
        (gevFoldFrom_ge_init data gfp t _)
    · exact ih _ f h

/-- When every examined candidate has non-positive GEV, the gev-criterion
fold started at the initial state never selects anything. -/
theorem gevFoldFrom_nonpos (data : List (List ℚ)) (gfp : List ℚ) :
    ∀ (fits : List RunFit),
      (∀ f ∈ fits, (mkRunResult data gfp f).g ≤ 0) →
      gevFoldFrom data gfp initState fits = initState := by
  intro fits
  induction fits with
  | nil => intro _; rfl
  | cons a t ih =>
    intro h
    have ha : (mkRunResult data gfp a).g ≤ 0 := h a (List.mem_cons_self a t)
    have hstep : gevStep initState (mkRunResult data gfp a) = initState :=
      gevStep_of_not_gt _ _ (by simp [initState]; exact ha)
    show gevFoldFrom data gfp (gevStep initState (mkRunResult data gfp a)) t = initState
    rw [hstep]
    exact ih (fun f hf => h f (List.mem_cons_of_mem a hf))

/-- The run loop under an unknown criterion string performs every
clustering call and leaves the selection state unchanged. -/
theorem runLoop_unknown (c : String) (hc1 : c ≠ "gev") (hc2 : c ≠ "cv")
    (data : List (List ℚ)) (gfp : List ℚ) :
    ∀ (fits : List RunFit) (st : SelState) (calls : ℕ),
      runLoop c data gfp st calls fits = (Except.ok st, calls + fits.length) := by
  intro fits
  induction fits with
  | nil => intro st calls; rfl
  | cons a t ih =>
    intro st calls
    rw [runLoop]
    have hstep : stepCrit c st (mkRunResult data gfp a) = Except.ok st := by
      unfold stepCrit
      rw [if_neg hc1, if_neg hc2]
    rw [hstep]
    show runLoop c data gfp st (calls + 1) t = (Except.ok st, calls + (a :: t).length)
    rw [ih]
    congr 1
    simp [List.length_cons]
    omega

/-- The run loop under criterion "gev" never raises and computes exactly
the gev-criterion fold, performing every clustering call. -/
theorem runLoop_gev (data : List (List ℚ)) (gfp : List ℚ) :
    ∀ (fits : List RunFit) (st : SelState) (calls : ℕ),
      runLoop "gev" data gfp st calls fits =
        (Except.ok (gevFoldFrom data gfp st fits), calls + fits.length) := by
  intro fits
  induction fits with
  | nil => intro st calls; rfl
  | cons a t ih =>
    intro st calls
    rw [runLoop]
    have hstep : stepCrit "gev" st (mkRunResult data gfp a) =
        Except.ok (gevStep st (mkRunResult data gfp a)) := by
      unfold stepCrit
      rw [if_pos rfl]
    rw [hstep]
    show runLoop "gev" data gfp (gevStep st (mkRunResult data gfp a)) (calls + 1) t =
      (Except.ok (gevFoldFrom data gfp st (a :: t)), calls + (a :: t).length)
    rw [ih]
    congr 1
    simp [List.length_cons]
    omega

/-- The derived seed list has exactly n_runs entries. -/
theorem randomStateChoice_length (stream : ℕ → ℕ) (n : ℕ) :
    (randomStateChoice stream n).length = n := by
  unfold randomStateChoice
  apply sampleNoReplace_length
  rw [List.length_range]
  calc n = n * 1 := (Nat.mul_one n).symm
  _ ≤ n * 1000 := Nat.mul_le_mul_left n (by norm_num)

/-- The entry point on a kmod-family method reduces to the multi-run loop
over the derived seeds. -/
theorem microstates_segment_kmod (cluster_fit : String → ℕ → RunFit)
    (criterion : String) (data : List (List ℚ)) (gfp : List ℚ)
    (stream : ℕ → ℕ) (n_runs : ℕ) :
    microstates_segment cluster_fit "kmod" criterion data gfp stream n_runs =
      (match runLoop criterion data gfp initState 0
          ((randomStateChoice stream n_runs).map (fun s => cluster_fit "kmod" s)) with
       | (Except.error e, calls) => { result := Except.error e, clusterCalls := calls }
       | (Except.ok st, calls) => { result := assembleKmod st gfp, clusterCalls := calls }) := by
  unfold microstates_segment
  rw [if_pos (by decide : ("kmod" : String) ∈ kmodNames)]

/-- The candidate absolute-activation vector has one entry per pattern. -/
theorem absAct_length (microstates : List (List ℚ)) (col : List ℚ) :
    (absList (activations microstates col)).length = microstates.length := by
  simp [absList, activations]

/-- Entry p of the absolute-activation vector is the absolute inner product
of pattern p with the sample. -/
theorem absAct_getD (microstates : List (List ℚ)) (col : List ℚ) (p : ℕ)
    (hp : p < microstates.length) :
    (absList (activations microstates col)).getD p 0 =
      |dot (microstates.getD p []) col| := by
  have hlen := absAct_length microstates col
  rw [getD_of_lt _ _ p (by rw [hlen]; exact hp), getD_of_lt _ _ p hp]
  simp [absList, activations]

/-- For a nonempty pattern set, segmentOne picks an in-range index whose
absolute activation dominates all patterns, strictly dominating all
lower-numbered patterns. -/
theorem segmentOne_spec (microstates : List (List ℚ)) (col : List ℚ)
    (hk : 0 < microstates.length) :
    segmentOne microstates col < microstates.length ∧
    (∀ p, p < microstates.length →
      |dot (microstates.getD p []) col| ≤
        |dot (microstates.getD (segmentOne microstates col) []) col|) ∧
    (∀ p, p < segmentOne microstates col →
      |dot (microstates.getD p []) col| <
        |dot (microstates.getD (segmentOne microstates col) []) col|) := by
  have hlen := absAct_length microstates col
  have hne : absList (activations microstates col) ≠ [] := by
    intro h
    rw [h] at hlen
    simp at hlen
    omega
  obtain ⟨h1, h2, h3⟩ := npArgmax_spec (absList (activations microstates col)) hne
  rw [hlen] at h1
  refine ⟨h1, ?_, ?_⟩
  · intro p hp
    have := h2 p (by rw [hlen]; exact hp)
    rwa [absAct_getD microstates col p hp, absAct_getD microstates col _ h1] at this
  · intro p hp
    have hplt : p < microstates.length := Nat.lt_trans hp h1
    have := h3 p hp
    rwa [absAct_getD microstates col p hplt, absAct_getD microstates col _ h1] at this

/-- C5: for every signal and nonempty pattern set, the segmentation has one
entry per sample, every entry is an index in [0, k), and each entry is the
lowest pattern index maximizing the absolute activation of its sample. -/
theorem claim_assignment_engine (microstates data : List (List ℚ))
    (hk : 0 < microstates.length) :
    (segmentationOf microstates data).length = data.length ∧
    ∀ i, i < data.length →
      (segmentationOf microstates data).getD i 0 < microstates.length ∧
      (∀ p, p < microstates.length →
        |dot (microstates.getD p []) (data.getD i [])| ≤
          |dot (microstates.getD ((segmentationOf microstates data).getD i 0) [])
            (data.getD i [])|) ∧
      (∀ p, p < (segmentationOf microstates data).getD i 0 →
        |dot (microstates.getD p []) (data.getD i [])| <
          |dot (microstates.getD ((segmentationOf microstates data).getD i 0) [])
            (data.getD i [])|) := by
  have hlen : (segmentationOf microstates data).length = data.length := by
    simp [segmentationOf]
  refine ⟨hlen, ?_⟩
  intro i hi
  have hseg : (segmentationOf microstates data).getD i 0 =
      segmentOne microstates (data.getD i []) := by
    rw [getD_of_lt _ _ i (by rw [hlen]; exact hi), getD_of_lt _ _ i hi]
    simp [segmentationOf]
  rw [hseg]
  exact segmentOne_spec microstates (data.getD i []) hk

/-- Closed instance of claim_assignment_engine with one pattern and one
sample, discharging the nonempty-pattern-set hypothesis. -/
theorem claim_assignment_engine_witness :
    0 < ([[(1 : ℚ)]] : List (List ℚ)).length ∧
    ((segmentationOf [[(1 : ℚ)]] [[(1 : ℚ)]]).length = ([[(1 : ℚ)]] : List (List ℚ)).length ∧
    ∀ i, i < ([[(1 : ℚ)]] : List (List ℚ)).length →
      (segmentationOf [[(1 : ℚ)]] [[(1 : ℚ)]]).getD i 0 < ([[(1 : ℚ)]] : List (List ℚ)).length ∧
      (∀ p, p < ([[(1 : ℚ)]] : List (List ℚ)).length →
        |dot (([[(1 : ℚ)]] : List (List ℚ)).getD p []) (([[(1 : ℚ)]] : List (List ℚ)).getD i [])| ≤
          |dot (([[(1 : ℚ)]] : List (List ℚ)).getD
              ((segmentationOf [[(1 : ℚ)]] [[(1 : ℚ)]]).getD i 0) [])
            (([[(1 : ℚ)]] : List (List ℚ)).getD i [])|) ∧
      (∀ p, p < (segmentationOf [[(1 : ℚ)]] [[(1 : ℚ)]]).getD i 0 →
        |dot (([[(1 : ℚ)]] : List (List ℚ)).getD p []) (([[(1 : ℚ)]] : List (List ℚ)).getD i [])| <
          |dot (([[(1 : ℚ)]] : List (List ℚ)).getD
              ((segmentationOf [[(1 : ℚ)]] [[(1 : ℚ)]]).getD i 0) [])
            (([[(1 : ℚ)]] : List (List ℚ)).getD i [])|)) :=
  ⟨by decide, claim_assignment_engine [[(1 : ℚ)]] [[(1 : ℚ)]] (by decide)⟩

/-- C2 counterexample: on a one-pattern set and a zero sample, the polarity
entry is 0, so the claim that every polarity entry is +1 or -1 is false. -/
theorem claim_polarity_pm_one_cex :
    ¬ (∀ x ∈ polarityOf [[(1 : ℚ)]] [[0]], x = 1 ∨ x = -1) := by
  intro hall
  have h0 : (0 : Int) ∈ polarityOf [[(1 : ℚ)]] [[0]] := by
    rw [exPolZero]
    exact List.mem_singleton.mpr rfl
  rcases hall 0 h0 with h | h <;> norm_num at h

/-- C2 amended: every polarity entry lies in the set with +1, 0 and -1, and
each sample polarity is the sign of the activation value of the assigned
pattern: +1 for a positive activation, -1 for a negative one, and 0 (not +1)
for an activation of exactly zero. -/
theorem claim_polarity_sign (microstates data : List (List ℚ)) (col : List ℚ)
    (x : Int) (hx : x ∈ polarityOf microstates data) :
    (x = 1 ∨ x = 0 ∨ x = -1) ∧
    (0 < (activations microstates col).getD (segmentOne microstates col) 0 →
      polarityOne microstates col = 1) ∧
    ((activations microstates col).getD (segmentOne microstates col) 0 < 0 →
      polarityOne microstates col = -1) ∧
    ((activations microstates col).getD (segmentOne microstates col) 0 = 0 →
      polarityOne microstates col = 0) := by
  refine ⟨?_, ?_, ?_, ?_⟩
  · obtain ⟨c, _, hc⟩ := List.mem_map.mp hx
    rw [← hc]
    unfold polarityOne npSign
    split
    · exact Or.inl rfl
    · split
      · exact Or.inr (Or.inr rfl)
      · exact Or.inr (Or.inl rfl)
  · intro h
    unfold polarityOne npSign
    rw [if_pos h]
  · intro h
    unfold polarityOne npSign
    rw [if_neg (by exact not_lt.mpr (le_of_lt h)), if_pos h]
  · intro h
    unfold polarityOne npSign
    rw [h]
    norm_num

/-- Closed instance of claim_polarity_sign at a concrete one-sample signal,
discharging the membership hypothesis. -/
theorem claim_polarity_sign_witness :
    (1 : Int) ∈ polarityOf [[(1 : ℚ)]] exData1 ∧
    (((1 : Int) = 1 ∨ (1 : Int) = 0 ∨ (1 : Int) = -1) ∧
    (0 < (activations [[(1 : ℚ)]] [(0 : ℚ)]).getD (segmentOne [[(1 : ℚ)]] [(0 : ℚ)]) 0 →
      polarityOne [[(1 : ℚ)]] [(0 : ℚ)] = 1) ∧
    ((activations [[(1 : ℚ)]] [(0 : ℚ)]).getD (segmentOne [[(1 : ℚ)]] [(0 : ℚ)]) 0 < 0 →
      polarityOne [[(1 : ℚ)]] [(0 : ℚ)] = -1) ∧
    ((activations [[(1 : ℚ)]] [(0 : ℚ)]).getD (segmentOne [[(1 : ℚ)]] [(0 : ℚ)]) 0 = 0 →
      polarityOne [[(1 : ℚ)]] [(0 : ℚ)] = 0)) :=
  ⟨by rw [exPol1]; exact List.mem_singleton.mpr rfl,
   claim_polarity_sign [[(1 : ℚ)]] exData1 [(0 : ℚ)] 1
     (by rw [exPol1]; exact List.mem_singleton.mpr rfl)⟩

/-- C3 counterexample: a first run whose aggregate GEV is 0 (pattern
orthogonal to the only sample) does not become the baseline: after the
first gev-criterion iteration no candidate is selected. -/
theorem claim_first_run_baseline_cex :
    (gevFoldFrom exDataOrth exGfpOrth initState [exFitOrth]).microstates = none := by
  have hg : (mkRunResult exDataOrth exGfpOrth exFitOrth).g = 0 := by
    simp [mkRunResult, exFitOrth]
    exact exGevOrth
  have hstep : gevStep initState (mkRunResult exDataOrth exGfpOrth exFitOrth) =
      initState := gevStep_of_not_gt _ _ (by rw [hg]; simp [initState])
  show (gevStep initState (mkRunResult exDataOrth exGfpOrth exFitOrth)).microstates = none
  rw [hstep]
  rfl

/-- A single positive-GEV run is retained as the baseline by the
gev-criterion fold. -/
theorem gevSingle_pos (data : List (List ℚ)) (gfp : List ℚ) (f : RunFit)
    (h : 0 < (mkRunResult data gfp f).g) :
    gevFoldFrom data gfp initState [f] =
      { gev := gevTotal f.clusters_normalized data gfp, cv := none,
        microstates := some f.clusters_normalized,
        segmentation := some (segmentationOf f.clusters_normalized data),
        polarity := some (polarityOf f.clusters_normalized data),
        gev_all := some (gevPerPattern f.clusters_normalized data gfp),
        info := some f } := by
  show gevStep initState (mkRunResult data gfp f) = _
  unfold gevStep
  rw [if_pos (by simpa [initState] using h)]
  rfl

/-- A single run with non-positive GEV is not retained by the gev-criterion
fold. -/
theorem gevSingle_nonpos (data : List (List ℚ)) (gfp : List ℚ) (f : RunFit)
    (h : (mkRunResult data gfp f).g ≤ 0) :
    gevFoldFrom data gfp initState [f] = initState := by
  show gevStep initState (mkRunResult data gfp f) = initState
  exact gevStep_of_not_gt _ _ (by simp [initState]; exact h)

/-- C3 amended: under criterion "gev" with the initial best GEV of 0, the
first run becomes the baseline iff its aggregate GEV is strictly positive;
a first run with non-positive aggregate GEV is not retained. -/
theorem claim_first_run_baseline (data : List (List ℚ)) (gfp : List ℚ) (f : RunFit) :
    (0 < (mkRunResult data gfp f).g →
      gevFoldFrom data gfp initState [f] =
        { gev := gevTotal f.clusters_normalized data gfp, cv := none,
          microstates := some f.clusters_normalized,
          segmentation := some (segmentationOf f.clusters_normalized data),
          polarity := some (polarityOf f.clusters_normalized data),
          gev_all := some (gevPerPattern f.clusters_normalized data gfp),
          info := some f }) ∧
    ((mkRunResult data gfp f).g ≤ 0 →
      gevFoldFrom data gfp initState [f] = initState) :=
  ⟨gevSingle_pos data gfp f, gevSingle_nonpos data gfp f⟩

/-- Closed instance of claim_first_run_baseline: a positive-GEV first run is
retained, a zero-GEV first run is not. -/
theorem claim_first_run_baseline_witness :
    gevFoldFrom exData1 exGfp1 initState [exFit1] =
      { gev := gevTotal exFit1.clusters_normalized exData1 exGfp1, cv := none,
        microstates := some exFit1.clusters_normalized,
        segmentation := some (segmentationOf exFit1.clusters_normalized exData1),
        polarity := some (polarityOf exFit1.clusters_normalized exData1),
        gev_all := some (gevPerPattern exFit1.clusters_normalized exData1 exGfp1),
        info := some exFit1 } ∧
    gevFoldFrom exDataOrth exGfpOrth initState [exFitOrth] = initState :=
  ⟨(claim_first_run_baseline exData1 exGfp1 exFit1).1
     (by simp [mkRunResult, exFit1, exGev1]),
   (claim_first_run_baseline exDataOrth exGfpOrth exFitOrth).2
     (by simp [mkRunResult, exFitOrth, exGevOrth])⟩

/-- C6: under criterion "gev" the final best GEV bounds from above the GEV
of every run candidate examined and never drops below its starting value,
and a candidate that merely equals (or is below) the running best leaves
the state, hence the earlier candidate, in place. -/
theorem claim_gev_monotone_selection (data : List (List ℚ)) (gfp : List ℚ)
    (fits : List RunFit) (st0 st : SelState) (r : RunResult)
    (hr : ¬ st.gev < r.g) :
    (∀ f ∈ fits, (mkRunResult data gfp f).g ≤ (gevFoldFrom data gfp st0 fits).gev) ∧
    st0.gev ≤ (gevFoldFrom data gfp st0 fits).gev ∧
    gevStep st r = st :=
  ⟨fun f hf => gevFoldFrom_ge_mem data gfp fits st0 f hf,
   gevFoldFrom_ge_init data gfp fits st0,
   gevStep_of_not_gt st r hr⟩

/-- Closed instance of claim_gev_monotone_selection with a tying candidate
(GEV 0 against best 0), discharging the no-strict-improvement hypothesis. -/
theorem claim_gev_monotone_selection_witness :
    ¬ (initState.gev <
        (RunResult.mk [[(1 : ℚ)]] [0] [1] 0 [1] 5 exFit1).g) ∧
    ((∀ f ∈ [exFit1],
        (mkRunResult exData1 exGfp1 f).g ≤
          (gevFoldFrom exData1 exGfp1 initState [exFit1]).gev) ∧
      initState.gev ≤ (gevFoldFrom exData1 exGfp1 initState [exFit1]).gev ∧
      gevStep initState (RunResult.mk [[(1 : ℚ)]] [0] [1] 0 [1] 5 exFit1) = initState) :=
  ⟨by simp [initState],
   claim_gev_monotone_selection exData1 exGfp1 [exFit1] initState initState
     (RunResult.mk [[(1 : ℚ)]] [0] [1] 0 [1] 5 exFit1) (by simp [initState])⟩

/-- C7: the derived seed list has exactly n_runs entries, the entries are
pairwise distinct, each lies in [0, 1000 * n_runs), and the derivation is a
deterministic function of the top-level random state. -/
theorem claim_seed_derivation (stream stream2 : ℕ → ℕ) (n : ℕ) (hn : 1 ≤ n)
    (hs : stream = stream2) :
    (randomStateChoice stream n).length = n ∧
    (randomStateChoice stream n).Nodup ∧
    (∀ x ∈ randomStateChoice stream n, x < 1000 * n) ∧
    randomStateChoice stream n = randomStateChoice stream2 n := by
  refine ⟨randomStateChoice_length stream n, ?_, ?_, by rw [hs]⟩
  · exact sampleNoReplace_nodup stream n 0 _ (List.nodup_range (n * 1000))
  · intro x hx
    have hmem : x ∈ List.range (n * 1000) :=
      sampleNoReplace_subset stream n 0 _ x hx
    have := List.mem_range.mp hmem
    omega

/-- Closed instance of claim_seed_derivation at n_runs = 1 and the identity
stream, discharging both hypotheses. -/
theorem claim_seed_derivation_witness :
    1 ≤ 1 ∧
    ((randomStateChoice id 1).length = 1 ∧
      (randomStateChoice id 1).Nodup ∧
      (∀ x ∈ randomStateChoice id 1, x < 1000 * 1) ∧
      randomStateChoice id 1 = randomStateChoice id 1) :=
  ⟨le_refl 1, claim_seed_derivation id id 1 (le_refl 1) rfl⟩

/-- C10: under criterion "gev", if every run has non-positive aggregate GEV
then no candidate is ever selected — the selection state keeps all fields
unset so output assembly raises instead of returning a result — and,
conversely, a successful output assembly implies some run had strictly
positive aggregate GEV. -/
theorem claim_gev_all_nonpositive (data : List (List ℚ)) (gfp : List ℚ)
    (fits : List RunFit) (res : SegResult) :
    ((∀ f ∈ fits, (mkRunResult data gfp f).g ≤ 0) →
      gevFoldFrom data gfp initState fits = initState ∧
      assembleKmod (gevFoldFrom data gfp initState fits) gfp =
        Except.error RunError.nameErrorUnbound) ∧
    (assembleKmod (gevFoldFrom data gfp initState fits) gfp = Except.ok res →
      ∃ f ∈ fits, 0 < (mkRunResult data gfp f).g) := by
  constructor
  · intro h
    have hfold := gevFoldFrom_nonpos data gfp fits h
    exact ⟨hfold, by rw [hfold]; rfl⟩
  · intro hok
    by_contra hnone
    push_neg at hnone
    have h : ∀ f ∈ fits, (mkRunResult data gfp f).g ≤ 0 := hnone
    have hfold := gevFoldFrom_nonpos data gfp fits h
    rw [hfold] at hok
    exact absurd hok (by simp [assembleKmod, initState])

/-- Closed instance of claim_gev_all_nonpositive: an all-zero-GEV run list
yields the unselected state and an assembly error, while a successful
assembly at a positive-GEV run list exhibits a positive run. -/
theorem claim_gev_all_nonpositive_witness :
    (gevFoldFrom exDataOrth exGfpOrth initState [exFitOrth] = initState ∧
      assembleKmod (gevFoldFrom exDataOrth exGfpOrth initState [exFitOrth]) exGfpOrth =
        Except.error RunError.nameErrorUnbound) ∧
    ∃ f ∈ [exFit1], 0 < (mkRunResult exData1 exGfp1 f).g :=
  ⟨(claim_gev_all_nonpositive exDataOrth exGfpOrth [exFitOrth]
      (SegResult.mk [] [] 0 [] [] [] 0 0)).1
     (by
       intro f hf
       rw [List.mem_singleton.mp hf]
       simp [mkRunResult, exFitOrth, exGevOrth]),
   (claim_gev_all_nonpositive exData1 exGfp1 [exFit1]
      (SegResult.mk [[(1 : ℚ)]] [0] 1 [1] exGfp1 [1] 5 7)).2
     (by
       have hg : (mkRunResult exData1 exGfp1 exFit1).g = 1 := by
         simp [mkRunResult, exFit1]
         exact exGev1
       have hstep : gevStep initState (mkRunResult exData1 exGfp1 exFit1) =
           { gev := (mkRunResult exData1 exGfp1 exFit1).g, cv := none,
             microstates := some (mkRunResult exData1 exGfp1 exFit1).microstates,
             segmentation := some (mkRunResult exData1 exGfp1 exFit1).s,
             polarity := some (mkRunResult exData1 exGfp1 exFit1).p,
             gev_all := some (mkRunResult exData1 exGfp1 exFit1).g_all,
             info := some (mkRunResult exData1 exGfp1 exFit1).fit } := by
         unfold gevStep
         rw [if_pos (by rw [hg]; simp [initState])]
         rfl
       show assembleKmod (gevStep initState (mkRunResult exData1 exGfp1 exFit1)) exGfp1 = _
       rw [hstep]
       simp [assembleKmod, mkRunResult, exFit1, hg, exGev1, exSeg1, exPol1, exGevAll1])⟩

/-- With n_runs = 1 the multi-run path reduces to output assembly after one
gev-criterion step on the single derived fit. -/
theorem microstates_segment_one_run (cluster_fit : String → ℕ → RunFit)
    (data : List (List ℚ)) (gfp : List ℚ) (stream : ℕ → ℕ) :
    (microstates_segment cluster_fit "kmod" "gev" data gfp stream 1).result =
      assembleKmod (gevFoldFrom data gfp initState
        [cluster_fit "kmod" ((randomStateChoice stream 1).getD 0 0)]) gfp := by
  have hlen := randomStateChoice_length stream 1
  obtain ⟨a, rest, hs⟩ : ∃ a rest, randomStateChoice stream 1 = a :: rest := by
    cases h : randomStateChoice stream 1 with
    | nil => rw [h] at hlen; simp at hlen
    | cons a rest => exact ⟨a, rest, rfl⟩
  have hrest : rest = [] := by
    rw [hs] at hlen
    simp at hlen
    exact hlen
  subst hrest
  rw [microstates_segment_kmod, hs]
  simp only [List.map]
  rw [runLoop_gev]
  rfl

/-- C8 counterexample: with n_runs = 1 and a single run of aggregate GEV 0,
the multi-run selector raises at output assembly while the direct
assignment engine on the same fit returns a well-defined output, so the two
are not equal. -/
theorem claim_single_run_equiv_cex :
    (microstates_segment (constFitOf exFitOrth) "kmod" "gev"
        exDataOrth exGfpOrth id 1).result =
      Except.error RunError.nameErrorUnbound ∧
    microstates_segment_runsegmentation exDataOrth
        exFitOrth.clusters_normalized exGfpOrth = ([0], [0], 0, [0]) := by
  constructor
  · rw [microstates_segment_one_run]
    rw [gevSingle_nonpos exDataOrth exGfpOrth (constFitOf exFitOrth "kmod" _)
      (by simp [mkRunResult, constFitOf, exFitOrth, exGevOrth])]
    rfl
  · show (segmentationOf exFitOrth.clusters_normalized exDataOrth,
        polarityOf exFitOrth.clusters_normalized exDataOrth,
        gevTotal exFitOrth.clusters_normalized exDataOrth exGfpOrth,
        gevPerPattern exFitOrth.clusters_normalized exDataOrth exGfpOrth) = _
    rw [show exFitOrth.clusters_normalized = [[(1 : ℚ), 0]] from rfl,
      exSegOrth, exPolOrth, exGevOrth, exGevAllOrth]

/-- C8 amended: with n_runs = 1 under criterion "gev", when the single run
has strictly positive aggregate GEV the selector output equals the direct
assignment engine output on that fit (same patterns, segmentation,
polarity, aggregate and per-pattern GEV); when its aggregate GEV is
non-positive the selector retains nothing and output assembly raises. -/
theorem claim_single_run_equiv (cluster_fit : String → ℕ → RunFit)
    (data : List (List ℚ)) (gfp : List ℚ) (stream : ℕ → ℕ) :
    (0 < (mkRunResult data gfp
        (cluster_fit "kmod" ((randomStateChoice stream 1).getD 0 0))).g →
      (microstates_segment cluster_fit "kmod" "gev" data gfp stream 1).result =
        Except.ok
          { microstates :=
              (cluster_fit "kmod" ((randomStateChoice stream 1).getD 0 0)).clusters_normalized,
            sequence := segmentationOf
              (cluster_fit "kmod" ((randomStateChoice stream 1).getD 0 0)).clusters_normalized
              data,
            gev := gevTotal
              (cluster_fit "kmod" ((randomStateChoice stream 1).getD 0 0)).clusters_normalized
              data gfp,
            gev_all := gevPerPattern
              (cluster_fit "kmod" ((randomStateChoice stream 1).getD 0 0)).clusters_normalized
              data gfp,
            gfp := gfp,
            polarity := polarityOf
              (cluster_fit "kmod" ((randomStateChoice stream 1).getD 0 0)).clusters_normalized
              data,
            info_residual :=
              (cluster_fit "kmod" ((randomStateChoice stream 1).getD 0 0)).residual,
            info_tag := (cluster_fit "kmod" ((randomStateChoice stream 1).getD 0 0)).tag }) ∧
    ((mkRunResult data gfp
        (cluster_fit "kmod" ((randomStateChoice stream 1).getD 0 0))).g ≤ 0 →
      (microstates_segment cluster_fit "kmod" "gev" data gfp stream 1).result =
        Except.error RunError.nameErrorUnbound) := by
  constructor
  · intro h
    rw [microstates_segment_one_run, gevSingle_pos data gfp _ h]
    rfl
  · intro h
    rw [microstates_segment_one_run, gevSingle_nonpos data gfp _ h]
    rfl

/-- Closed instance of claim_single_run_equiv: a positive-GEV single run is
returned as the direct assignment engine output, a zero-GEV single run
makes the selector raise. -/
theorem claim_single_run_equiv_witness :
    ((microstates_segment (constFitOf exFit1) "kmod" "gev" exData1 exGfp1 id 1).result =
      Except.ok
        { microstates :=
            (constFitOf exFit1 "kmod" ((randomStateChoice id 1).getD 0 0)).clusters_normalized,
          sequence := segmentationOf
            (constFitOf exFit1 "kmod" ((randomStateChoice id 1).getD 0 0)).clusters_normalized
            exData1,
          gev := gevTotal
            (constFitOf exFit1 "kmod" ((randomStateChoice id 1).getD 0 0)).clusters_normalized
            exData1 exGfp1,
          gev_all := gevPerPattern
            (constFitOf exFit1 "kmod" ((randomStateChoice id 1).getD 0 0)).clusters_normalized
            exData1 exGfp1,
          gfp := exGfp1,
          polarity := polarityOf
            (constFitOf exFit1 "kmod" ((randomStateChoice id 1).getD 0 0)).clusters_normalized
            exData1,
          info_residual :=
            (constFitOf exFit1 "kmod" ((randomStateChoice id 1).getD 0 0)).residual,
          info_tag := (constFitOf exFit1 "kmod" ((randomStateChoice id 1).getD 0 0)).tag }) ∧
    ((microstates_segment (constFitOf exFitOrth) "kmod" "gev"
        exDataOrth exGfpOrth id 1).result = Except.error RunError.nameErrorUnbound) :=
  ⟨(claim_single_run_equiv (constFitOf exFit1) exData1 exGfp1 id).1
     (by simp [constFitOf, mkRunResult, exFit1, exGev1]),
   (claim_single_run_equiv (constFitOf exFitOrth) exDataOrth exGfpOrth id).2
     (by simp [constFitOf, mkRunResult, exFitOrth, exGevOrth])⟩

/-- C9: the entry point is deterministic — two invocations with the same
clustering primitive, method, criterion, inputs, stream and run count
produce the same output, in particular the same pattern set and the same
segmentation. -/
theorem claim_determinism (cf cf2 : String → ℕ → RunFit) (m m2 c c2 : String)
    (data data2 : List (List ℚ)) (gfp gfp2 : List ℚ) (stream stream2 : ℕ → ℕ)
    (n n2 : ℕ) (h1 : cf = cf2) (h2 : m = m2) (h3 : c = c2) (h4 : data = data2)
    (h5 : gfp = gfp2) (h6 : stream = stream2) (h7 : n = n2) :
    microstates_segment cf m c data gfp stream n =
      microstates_segment cf2 m2 c2 data2 gfp2 stream2 n2 := by
  subst h1 h2 h3 h4 h5 h6 h7
  rfl

/-- Closed instance of claim_determinism at concrete inputs, discharging
every input-equality hypothesis by rfl. -/
theorem claim_determinism_witness :
    microstates_segment (constFitOf exFit1) "kmod" "gev" exData1 exGfp1 id 1 =
      microstates_segment (constFitOf exFit1) "kmod" "gev" exData1 exGfp1 id 1 :=
  claim_determinism (constFitOf exFit1) (constFitOf exFit1) "kmod" "kmod"
    "gev" "gev" exData1 exData1 exGfp1 exGfp1 id id 1 1 rfl rfl rfl rfl rfl rfl rfl

/-- C4 counterexample: an unknown method string is not rejected; the
clustering primitive is called once with it and the call returns a normal
output rather than a configuration error. -/
theorem claim_invalid_config_cex :
    microstates_segment (constFitOf exFit1) "foo" "gev" exData1 exGfp1 id 3 =
      { result := Except.ok
          { microstates := [[(1 : ℚ)]], sequence := [0], gev := 1, gev_all := [1],
            gfp := exGfp1, polarity := [1], info_residual := 5, info_tag := 7 },
        clusterCalls := 1 } := by
  have hm : ("foo" : String) ∉ kmodNames := by decide
  unfold microstates_segment
  rw [if_neg hm]
  simp only [constFitOf, mkRunResult]
  rw [show exFit1.clusters_normalized = [[(1 : ℚ)]] from rfl, exSeg1, exPol1,
    exGev1, exGevAll1]
  rfl

/-- C4 amended: no configuration validation exists.  An unknown method
string reaches the clustering primitive (exactly one call, normal return
path); under the kmod path an unknown criterion string performs all n_runs
clustering calls, selects nothing, and fails only at output assembly. -/
theorem claim_no_config_validation (cf : String → ℕ → RunFit) (m c : String)
    (data : List (List ℚ)) (gfp : List ℚ) (stream : ℕ → ℕ) (n : ℕ)
    (hm : m ∉ kmodNames) (hc1 : c ≠ "gev") (hc2 : c ≠ "cv") :
    (microstates_segment cf m c data gfp stream n).clusterCalls = 1 ∧
    (microstates_segment cf "kmod" c data gfp stream n).clusterCalls = n ∧
    (microstates_segment cf "kmod" c data gfp stream n).result =
      Except.error RunError.nameErrorUnbound := by
  refine ⟨?_, ?_⟩
  · unfold microstates_segment
    rw [if_neg hm]
  · have hloop := runLoop_unknown c hc1 hc2 data gfp
      ((randomStateChoice stream n).map (fun s => cf "kmod" s)) initState 0
    have hlen : ((randomStateChoice stream n).map (fun s => cf "kmod" s)).length = n := by
      rw [List.length_map, randomStateChoice_length]
    constructor
    · rw [microstates_segment_kmod, hloop]
      simp [hlen]
    · rw [microstates_segment_kmod, hloop]
      rfl

/-- Closed instance of claim_no_config_validation at unknown method "foo"
and unknown criterion "xyz", discharging the three string hypotheses. -/
theorem claim_no_config_validation_witness :
    (microstates_segment (constFitOf exFit1) "foo" "xyz" exData1 exGfp1 id 2).clusterCalls
      = 1 ∧
    (microstates_segment (constFitOf exFit1) "kmod" "xyz" exData1 exGfp1 id 2).clusterCalls
      = 2 ∧
    (microstates_segment (constFitOf exFit1) "kmod" "xyz" exData1 exGfp1 id 2).result =
      Except.error RunError.nameErrorUnbound :=
  claim_no_config_validation (constFitOf exFit1) "foo" "xyz" exData1 exGfp1 id 2
    (by decide) (by decide) (by decide)

set_option maxRecDepth 100000 in
/-- C1 (code defect): under criterion "cv" the very first qualifying run
(residual 5 below the initial infinite cv) does not replace the best
without error — the statement info -= current_info raises a TypeError and
the whole call aborts after the first clustering run. -/
theorem claim_cv_replacement_raises :
    microstates_segment (constFitOf exFit1) "kmod" "cv" exData1 exGfp1 id 1 =
      { result := Except.error RunError.typeErrorISub, clusterCalls := 1 } := rfl
